import Mathlib

set_option maxHeartbeats 1000000

/-!
Shallow embedding of the URL-shortener service in `src/src/main.rs`
(repository `sidorov-alex/url-shortener`).

Strings are Lean `String`s (`Slug(pub String)` and `Url(pub String)` are
newtype wrappers whose equality is by exact string value, so we embed them
as `String` directly).  The two `HashMap`s of `UrlShortenerService` are
embedded as association lists with first-match lookup; `HashMap::insert`
replaces an existing binding and `get_mut`-style in-place mutation updates
the bound value.  The `u64` redirect counter is embedded as `Nat`.
Fallible code returns `Except`; a Rust `unwrap` panic is an outer `none`.
-/

/-- Rust `pub struct Slug(pub String)`. -/
abbrev Slug := String

/-- Rust `pub struct Url(pub String)`. -/
abbrev Url := String

/-- Rust `pub enum ShortenerError`. -/
inductive ShortenerError where
  | InvalidUrl
  | SlugAlreadyInUse
  | SlugNotFound
  deriving DecidableEq

/-- Rust `pub struct ShortLink { slug: Slug, url: Url }`. -/
structure ShortLink where
  slug : Slug
  url : Url
  deriving DecidableEq

/-- Rust `pub struct Stats { link: ShortLink, redirects: u64 }`. -/
structure Stats where
  link : ShortLink
  redirects : Nat
  deriving DecidableEq

/-- First-match lookup in an association list, embedding `HashMap::get`. -/
def mapLookup {α : Type} : List (Slug × α) → Slug → Option α
  | [], _ => none
  | (k', v) :: rest, k => if k' = k then some v else mapLookup rest k

/-- Embeds `HashMap::contains_key`. -/
def mapContains {α : Type} (m : List (Slug × α)) (k : Slug) : Bool :=
  (mapLookup m k).isSome

/-- Embeds `HashMap::insert`: replaces the binding of `k` if present,
otherwise adds one. -/
def mapInsert {α : Type} : List (Slug × α) → Slug → α → List (Slug × α)
  | [], k, v => [(k, v)]
  | (k', v') :: rest, k, v =>
    if k' = k then (k, v) :: rest else (k', v') :: mapInsert rest k v

/-- Embeds in-place mutation through `HashMap::get_mut`: applies `f` to the
value bound to `k` (the first such binding), if any. -/
def mapUpdate {α : Type} : List (Slug × α) → Slug → (α → α) → List (Slug × α)
  | [], _, _ => []
  | (k', v) :: rest, k, f =>
    if k' = k then (k', f v) :: rest else (k', v) :: mapUpdate rest k f

/-- The separator `"://"` that `validate_url` splits on, as a character list. -/
def sepChars : List Char := [':', '/', '/']

/-- Embeds Rust `str::starts_with` on pattern strings. -/
def starts_with (p s : String) : Bool := p.data.isPrefixOf s.data

/-- One step of Rust's `str::split("://")` iterator: the text before the
first occurrence of `"://"` together with the text after it, or `none` when
the separator does not occur (matches are non-overlapping, left to right). -/
def sepSplitFirst : List Char → Option (List Char × List Char)
  | [] => none
  | ':' :: '/' :: '/' :: rest => some ([], rest)
  | c :: rest =>
    match sepSplitFirst rest with
    | some (pre, post) => some (c :: pre, post)
    | none => none

/-- Embeds `url.0.split("://").nth(1)`: the segment between the first and
the second occurrence of `"://"` (running to the end of the string when
there is no second occurrence), or `none` when `"://"` never occurs. -/
def splitNth1 (s : List Char) : Option (List Char) :=
  match sepSplitFirst s with
  | none => none
  | some (_, rest) =>
    match sepSplitFirst rest with
    | some (pre, _) => some pre
    | none => some rest

/-- Embeds `fn validate_url(url: &Url) -> bool` of `src/src/main.rs`. -/
def validate_url (url : Url) : Bool :=
  if !(starts_with "http://" url) && !(starts_with "https://" url) then
    false
  else
    match splitNth1 url.data with
    | some domain => !(domain.isEmpty)
    | none => false

/-- The remainder of the URL after its scheme separator: what follows
`"http://"` (7 characters) or `"https://"` (8 characters). -/
def schemeRemainder (url : Url) : List Char :=
  if starts_with "http://" url then url.data.drop 7 else url.data.drop 8

/-- The slug alphabet built in `UrlShortenerService::new`:
`"aAbBcCdDeEfFgGhHjJkKmMnNpPqQrRsStTuUvVwWxXyYzZ0123456789".chars().collect()`. -/
def slug_alphabet : List Char :=
  "aAbBcCdDeEfFgGhHjJkKmMnNpPqQrRsStTuUvVwWxXyYzZ0123456789".data

/-- Rust `pub struct UrlShortenerService { map, stats, slug_alphabet }`; the
alphabet field is the constant `slug_alphabet`, so it is not part of the
state we track. -/
structure UrlShortenerService where
  map : List (Slug × ShortLink)
  stats : List (Slug × Stats)
  deriving DecidableEq

/-- Rust `UrlShortenerService::new()`: empty maps. -/
def UrlShortenerService.new : UrlShortenerService :=
  { map := [], stats := [] }

/-- What a single `self.slug_alphabet.choose_multiple(&mut rng, 6)` draw is
guaranteed to produce: 6 pairwise-distinct characters of the alphabet. -/
def chooseMultipleDraw (c : List Char) : Prop :=
  c.length = 6 ∧ c.Nodup ∧ ∀ ch ∈ c, ch ∈ slug_alphabet

/-- Rust `fn generate_unique_slug(&self) -> Slug`, with the randomness of
`choose_multiple` replaced by an explicit stream of candidate draws: the
loop returns the first candidate absent from `self.map` (`none` when the
finite stream runs out, standing for the loop spinning on). -/
def generate_unique_slug (svc : UrlShortenerService) : List (List Char) → Option Slug
  | [] => none
  | c :: rest =>
    let slug : Slug := String.mk c
    if mapContains svc.map slug then generate_unique_slug svc rest
    else some slug

/-- Rust `fn handle_create_short_link(&mut self, url, slug)`.  `gen` is the
slug `generate_unique_slug` would return when `slug` is `None`, so Rust's
`slug.unwrap_or_else(|| self.generate_unique_slug())` is `slug.getD gen`
(the source's `let slug` / `let link` bindings are inlined). -/
def handle_create_short_link (svc : UrlShortenerService) (url : Url)
    (slug : Option Slug) (gen : Slug) :
    Except ShortenerError ShortLink × UrlShortenerService :=
  if !(validate_url url) then
    (Except.error ShortenerError.InvalidUrl, svc)
  else
    if mapContains svc.map (slug.getD gen) then
      (Except.error ShortenerError.SlugAlreadyInUse, svc)
    else
      (Except.ok { slug := slug.getD gen, url := url },
        { svc with
            map := mapInsert svc.map (slug.getD gen) { slug := slug.getD gen, url := url }
            stats := mapInsert svc.stats (slug.getD gen)
              { link := { slug := slug.getD gen, url := url }, redirects := 0 } })

/-- Rust `fn handle_redirect(&mut self, slug)`.  The outer `none` is the
`self.stats.get_mut(&slug).unwrap()` panic on a missing stats entry. -/
def handle_redirect (svc : UrlShortenerService) (slug : Slug) :
    Option (Except ShortenerError ShortLink × UrlShortenerService) :=
  match mapLookup svc.map slug with
  | some link =>
    match mapLookup svc.stats slug with
    | some _ =>
      some (Except.ok link,
        { svc with
            stats := mapUpdate svc.stats slug
              (fun st => { st with redirects := st.redirects + 1 }) })
    | none => none
  | none => some (Except.error ShortenerError.SlugNotFound, svc)

/-- Rust `fn handle_change_short_link(&mut self, slug, new_url)`.  Note that
only the `ShortLink` in `self.map` is updated; `self.stats` is untouched. -/
def handle_change_short_link (svc : UrlShortenerService) (slug : Slug) (new_url : Url) :
    Except ShortenerError ShortLink × UrlShortenerService :=
  if !(validate_url new_url) then
    (Except.error ShortenerError.InvalidUrl, svc)
  else
    match mapLookup svc.map slug with
    | some link =>
      (Except.ok { link with url := new_url },
        { svc with
            map := mapUpdate svc.map slug (fun l => { l with url := new_url }) })
    | none => (Except.error ShortenerError.SlugNotFound, svc)

/-- Rust `fn get_stats(&self, slug)` of the query handler.  The outer `none`
is the `self.stats.get(&slug).unwrap()` panic. -/
def get_stats (svc : UrlShortenerService) (slug : Slug) :
    Option (Except ShortenerError Stats) :=
  if mapContains svc.map slug then
    match mapLookup svc.stats slug with
    | some st => some (Except.ok st)
    | none => none
  else
    some (Except.error ShortenerError.SlugNotFound)

/-- One service operation, as offered by the command and query handlers.
For `create`, `gen` is the slug the generator would supply when `slug` is
`none` (any slug: this over-approximates the generator's actual outputs). -/
inductive Op where
  | create (url : Url) (slug : Option Slug) (gen : Slug)
  | redirect (slug : Slug)
  | change (slug : Slug) (newUrl : Url)
  | getStats (slug : Slug)
  deriving DecidableEq

/-- The state after one operation; `none` when the operation panics. -/
def applyOp (svc : UrlShortenerService) : Op → Option UrlShortenerService
  | Op.create url slug gen => some (handle_create_short_link svc url slug gen).2
  | Op.redirect slug => (handle_redirect svc slug).map Prod.snd
  | Op.change slug newUrl => some (handle_change_short_link svc slug newUrl).2
  | Op.getStats slug => (get_stats svc slug).map (fun _ => svc)

/-- The state after a sequence of operations; `none` when one panics. -/
def runOps (svc : UrlShortenerService) : List Op → Option UrlShortenerService
  | [] => some svc
  | op :: rest =>
    match applyOp svc op with
    | some svc' => runOps svc' rest
    | none => none

/-- States reachable from `UrlShortenerService::new()` by panic-free
operations. -/
inductive Reachable : UrlShortenerService → Prop where
  | init : Reachable UrlShortenerService.new
  | step {svc svc' : UrlShortenerService} {op : Op} :
      Reachable svc → applyOp svc op = some svc' → Reachable svc'

/-- Invariant I1: `map` and `stats` always hold entries for exactly the
same slugs. -/
def linkStatsKeyInv (svc : UrlShortenerService) : Prop :=
  ∀ s : Slug, (mapLookup svc.map s).isSome = (mapLookup svc.stats s).isSome

/-- Every stored `ShortLink` carries the slug it is keyed by. -/
def slugKeyInv (svc : UrlShortenerService) : Prop :=
  ∀ s link, mapLookup svc.map s = some link → link.slug = s

/-- The redirect counter recorded for a slug, if any. -/
def getRedirects (svc : UrlShortenerService) (s : Slug) : Option Nat :=
  (mapLookup svc.stats s).map Stats.redirects

/-- How many operations of a trace are redirects of slug `s`. -/
def countRedirects (s : Slug) : List Op → Nat
  | [] => 0
  | op :: rest => (if op = Op.redirect s then 1 else 0) + countRedirects s rest

/-- The alphabet the spec claims the slug generator draws from: uppercase
A-Z, lowercase a-z and digits 0-9, each appearing once (62 characters). -/
def spec_alphabet_62 : List Char :=
  "ABCDEFGHIJKLMNOPQRSTUVWXYZabcdefghijklmnopqrstuvwxyz0123456789".data

/-- Concrete state: the fresh service after creating slug `"s1"` for
`"http://old.example"`. -/
def svcCreated : UrlShortenerService :=
  (handle_create_short_link UrlShortenerService.new "http://old.example"
    (some "s1") "s1").2

/-- Concrete state: `svcCreated` after changing the URL of `"s1"` to
`"http://new.example"`. -/
def svcChanged : UrlShortenerService :=
  (handle_change_short_link svcCreated "s1" "http://new.example").2

/-- Concrete trace: two redirects of `"s1"` with a query and a URL change
interleaved. -/
def opsTrace : List Op :=
  [Op.redirect "s1", Op.getStats "s1", Op.change "s1" "http://w2.example",
    Op.redirect "s1"]

/-- Concrete state: `svcCreated` after running `opsTrace`. -/
def svcTraced : UrlShortenerService :=
  (runOps svcCreated opsTrace).getD UrlShortenerService.new

theorem mapLookup_mapInsert {α : Type} (m : List (Slug × α)) (k k' : Slug) (v : α) :
    mapLookup (mapInsert m k v) k' = if k = k' then some v else mapLookup m k' := by
  induction m with
  | nil =>
    by_cases h : k = k' <;> simp [mapInsert, mapLookup, h]
  | cons hd tl ih =>
    obtain ⟨k0, v0⟩ := hd
    by_cases h0 : k0 = k
    · subst h0
      by_cases h : k0 = k' <;> simp [mapInsert, mapLookup, h]
    · by_cases h : k0 = k'
      · subst h
        have hkk' : ¬(k = k0) := fun hh => h0 hh.symm
        simp [mapInsert, mapLookup, h0, hkk']
      · simp [mapInsert, mapLookup, h0, h, ih]

theorem mapLookup_mapUpdate {α : Type} (m : List (Slug × α)) (k k' : Slug) (f : α → α) :
    mapLookup (mapUpdate m k f) k' =
      if k = k' then (mapLookup m k').map f else mapLookup m k' := by
  induction m with
  | nil =>
    by_cases h : k = k' <;> simp [mapUpdate, mapLookup, h]
  | cons hd tl ih =>
    obtain ⟨k0, v0⟩ := hd
    by_cases h0 : k0 = k
    · subst h0
      by_cases h : k0 = k' <;> simp [mapUpdate, mapLookup, h]
    · by_cases h : k0 = k'
      · subst h
        have hkk' : ¬(k = k0) := fun hh => h0 hh.symm
        simp [mapUpdate, mapLookup, h0, hkk']
      · simp [mapUpdate, mapLookup, h0, h, ih]

theorem mapContains_mapInsert {α : Type} (m : List (Slug × α)) (k k' : Slug) (v : α) :
    mapContains (mapInsert m k v) k' = (if k = k' then true else mapContains m k') := by
  by_cases h : k = k' <;> simp [mapContains, mapLookup_mapInsert, h]

theorem mapContains_mapUpdate {α : Type} (m : List (Slug × α)) (k k' : Slug) (f : α → α) :
    mapContains (mapUpdate m k f) k' = mapContains m k' := by
  by_cases h : k = k' <;> simp [mapContains, mapLookup_mapUpdate, h]

theorem mapContains_eq_false_iff {α : Type} (m : List (Slug × α)) (k : Slug) :
    mapContains m k = false ↔ mapLookup m k = none := by
  unfold mapContains
  cases mapLookup m k <;> simp

theorem sepChars_isPrefixOf_iff (r : List Char) :
    sepChars.isPrefixOf r = true ↔ ∃ t, r = ':' :: '/' :: '/' :: t := by
  constructor
  · intro h
    rw [ List.isPrefixOf_iff_prefix] at h
    obtain ⟨t, ht⟩ := h
    exact ⟨t, ht.symm⟩
  · rintro ⟨t, rfl⟩
    simp [sepChars, List.isPrefixOf]

theorem sepSplitFirst_nonempty_pre (r pre post : List Char)
    (h : sepSplitFirst r = some (pre, post))
    (hnp : sepChars.isPrefixOf r = false) : pre ≠ [] := by
  rw [sepSplitFirst.eq_def] at h
  split at h
  · exact absurd h (by simp)
  · exact absurd hnp (by simp [sepChars, List.isPrefixOf])
  · rename_i c rest _
    cases hs : sepSplitFirst rest with
    | none => rw [hs] at h; exact absurd h (by simp)
    | some pq =>
      obtain ⟨pre', post'⟩ := pq
      rw [hs] at h
      simp only [Option.some.injEq, Prod.mk.injEq] at h
      obtain ⟨hpre, -⟩ := h
      rw [← hpre]
      simp

theorem splitNth1_http (r : List Char) :
    splitNth1 ("http://".data ++ r) =
      (match sepSplitFirst r with
       | some (pre, _) => some pre
       | none => some r) := by
  have h : sepSplitFirst ("http://".data ++ r) = some (['h', 't', 't', 'p'], r) := rfl
  rw [splitNth1, h]

theorem splitNth1_https (r : List Char) :
    splitNth1 ("https://".data ++ r) =
      (match sepSplitFirst r with
       | some (pre, _) => some pre
       | none => some r) := by
  have h : sepSplitFirst ("https://".data ++ r) = some (['h', 't', 't', 'p', 's'], r) := rfl
  rw [splitNth1, h]

theorem validate_url_segment (r : List Char) :
    (match (match sepSplitFirst r with
            | some (pre, _) => some pre
            | none => some r) with
     | some domain => !(domain.isEmpty)
     | none => false) = true ↔
      (r ≠ [] ∧ sepChars.isPrefixOf r = false) := by
  cases hs : sepSplitFirst r with
  | none =>
    have hnp : sepChars.isPrefixOf r = false := by
      cases hps : sepChars.isPrefixOf r
      · rfl
      · obtain ⟨t, rfl⟩ := (sepChars_isPrefixOf_iff r).mp hps
        simp [sepSplitFirst] at hs
    cases r with
    | nil => simp [hnp]
    | cons c cs => simp [hnp]
  | some pq =>
    obtain ⟨pre, post⟩ := pq
    have hr : r ≠ [] := by
      intro hnil
      rw [hnil] at hs
      simp [sepSplitFirst] at hs
    by_cases hps : sepChars.isPrefixOf r = true
    · obtain ⟨t, rfl⟩ := (sepChars_isPrefixOf_iff r).mp hps
      have : sepSplitFirst (':' :: '/' :: '/' :: t) = some ([], t) := rfl
      rw [this] at hs
      simp only [Option.some.injEq, Prod.mk.injEq] at hs
      obtain ⟨hpre, -⟩ := hs
      simp [← hpre, hps]
    · have hnp : sepChars.isPrefixOf r = false := by
        cases hps' : sepChars.isPrefixOf r
        · rfl
        · exact absurd hps' hps
      have hpre := sepSplitFirst_nonempty_pre r pre post hs hnp
      cases hp : pre with
      | nil => exact absurd hp hpre
      | cons c cs => simp [hr, hnp]

theorem validate_url_iff (url : Url) :
    validate_url url = true ↔
      ((starts_with "http://" url = true ∨ starts_with "https://" url = true) ∧
        schemeRemainder url ≠ [] ∧ sepChars.isPrefixOf (schemeRemainder url) = false) := by
  by_cases h1 : starts_with "http://" url = true
  · have hpre : "http://".data.isPrefixOf url.data = true := h1
    rw [ List.isPrefixOf_iff_prefix] at hpre
    obtain ⟨r, hr⟩ := hpre
    have hrem : schemeRemainder url = r := by
      rw [schemeRemainder, if_pos h1, ← hr]
      exact List.drop_left "http://".data r
    rw [hrem]
    have hv : validate_url url =
        (match splitNth1 url.data with
         | some domain => !(domain.isEmpty)
         | none => false) := by
      rw [validate_url, h1]
      simp
    rw [hv, ← hr, splitNth1_http]
    rw [validate_url_segment r]
    simp [h1]
  · by_cases h2 : starts_with "https://" url = true
    · have hpre : "https://".data.isPrefixOf url.data = true := h2
      rw [ List.isPrefixOf_iff_prefix] at hpre
      obtain ⟨r, hr⟩ := hpre
      have h1f : starts_with "http://" url = false := by
        cases hb : starts_with "http://" url
        · rfl
        · exact absurd hb h1
      have hrem : schemeRemainder url = r := by
        rw [schemeRemainder, if_neg (by rw [h1f]; exact Bool.false_ne_true), ← hr]
        exact List.drop_left "https://".data r
      rw [hrem]
      have hv : validate_url url =
          (match splitNth1 url.data with
           | some domain => !(domain.isEmpty)
           | none => false) := by
        rw [validate_url, h1f, h2]
        simp
      rw [hv, ← hr, splitNth1_https]
      rw [validate_url_segment r]
      simp [h2]
    · have h1f : starts_with "http://" url = false := by
        cases hb : starts_with "http://" url
        · rfl
        · exact absurd hb h1
      have h2f : starts_with "https://" url = false := by
        cases hb : starts_with "https://" url
        · rfl
        · exact absurd hb h2
      rw [validate_url, h1f, h2f]
      simp

theorem linkStatsKeyInv_new : linkStatsKeyInv UrlShortenerService.new := by
  intro s
  rfl

theorem slugKeyInv_new : slugKeyInv UrlShortenerService.new := by
  intro s link h
  simp [UrlShortenerService.new, mapLookup] at h

theorem linkStatsKeyInv_create (svc : UrlShortenerService) (url : Url)
    (slugOpt : Option Slug) (gen : Slug) (hinv : linkStatsKeyInv svc) :
    linkStatsKeyInv (handle_create_short_link svc url slugOpt gen).2 := by
  rw [handle_create_short_link]
  split
  · exact hinv
  split
  · exact hinv
  intro s
  simp only [mapLookup_mapInsert]
  by_cases hs : slugOpt.getD gen = s <;> simp [hs, hinv s]

theorem linkStatsKeyInv_redirect {svc svc' : UrlShortenerService} {s : Slug}
    (hinv : linkStatsKeyInv svc)
    (h : applyOp svc (Op.redirect s) = some svc') : linkStatsKeyInv svc' := by
  simp only [applyOp, handle_redirect] at h
  cases hm : mapLookup svc.map s with
  | none =>
    rw [hm] at h
    simp at h
    subst h
    exact hinv
  | some link =>
    rw [hm] at h
    cases hst : mapLookup svc.stats s with
    | none => rw [hst] at h; simp at h
    | some st =>
      rw [hst] at h
      simp at h
      subst h
      intro t
      simp only [mapLookup_mapUpdate]
      by_cases ht : s = t <;> simp [ht, hinv t]

theorem linkStatsKeyInv_change (svc : UrlShortenerService) (s : Slug) (u : Url)
    (hinv : linkStatsKeyInv svc) :
    linkStatsKeyInv (handle_change_short_link svc s u).2 := by
  rw [handle_change_short_link]
  split
  · exact hinv
  cases hm : mapLookup svc.map s with
  | none => exact hinv
  | some link =>
    intro t
    simp only [mapLookup_mapUpdate]
    by_cases ht : s = t <;> simp [ht, hinv t]

theorem linkStatsKeyInv_applyOp {svc svc' : UrlShortenerService} {op : Op}
    (hinv : linkStatsKeyInv svc) (h : applyOp svc op = some svc') :
    linkStatsKeyInv svc' := by
  cases op with
  | create url slugOpt gen =>
    simp only [applyOp, Option.some.injEq] at h
    subst h
    exact linkStatsKeyInv_create svc url slugOpt gen hinv
  | redirect s => exact linkStatsKeyInv_redirect hinv h
  | change s u =>
    simp only [applyOp, Option.some.injEq] at h
    subst h
    exact linkStatsKeyInv_change svc s u hinv
  | getStats s =>
    simp only [applyOp] at h
    cases hg : get_stats svc s with
    | none => rw [hg] at h; simp at h
    | some r => rw [hg] at h; simp at h; subst h; exact hinv

theorem slugKeyInv_create (svc : UrlShortenerService) (url : Url)
    (slugOpt : Option Slug) (gen : Slug) (hinv : slugKeyInv svc) :
    slugKeyInv (handle_create_short_link svc url slugOpt gen).2 := by
  rw [handle_create_short_link]
  split
  · exact hinv
  split
  · exact hinv
  intro s link h
  simp only [mapLookup_mapInsert] at h
  by_cases hs : slugOpt.getD gen = s
  · rw [if_pos hs] at h
    simp only [Option.some.injEq] at h
    rw [← h]
    exact hs
  · rw [if_neg hs] at h
    exact hinv s link h

theorem slugKeyInv_change (svc : UrlShortenerService) (s : Slug) (u : Url)
    (hinv : slugKeyInv svc) :
    slugKeyInv (handle_change_short_link svc s u).2 := by
  rw [handle_change_short_link]
  split
  · exact hinv
  cases hm : mapLookup svc.map s with
  | none => exact hinv
  | some link =>
    intro t l h
    simp only [mapLookup_mapUpdate] at h
    by_cases ht : s = t
    · subst ht
      rw [if_pos rfl, hm] at h
      simp only [Option.map_some', Option.some.injEq] at h
      rw [← h]
      exact hinv s link hm
    · rw [if_neg ht] at h
      exact hinv t l h

theorem slugKeyInv_applyOp {svc svc' : UrlShortenerService} {op : Op}
    (hinv : slugKeyInv svc) (h : applyOp svc op = some svc') :
    slugKeyInv svc' := by
  cases op with
  | create url slugOpt gen =>
    simp only [applyOp, Option.some.injEq] at h
    subst h
    exact slugKeyInv_create svc url slugOpt gen hinv
  | redirect s =>
    simp only [applyOp, handle_redirect] at h
    cases hm : mapLookup svc.map s with
    | none => rw [hm] at h; simp at h; subst h; exact hinv
    | some link =>
      rw [hm] at h
      cases hst : mapLookup svc.stats s with
      | none => rw [hst] at h; simp at h
      | some st => rw [hst] at h; simp at h; subst h; exact hinv
  | change s u =>
    simp only [applyOp, Option.some.injEq] at h
    subst h
    exact slugKeyInv_change svc s u hinv
  | getStats s =>
    simp only [applyOp] at h
    cases hg : get_stats svc s with
    | none => rw [hg] at h; simp at h
    | some r => rw [hg] at h; simp at h; subst h; exact hinv

theorem reachable_linkStatsKeyInv {svc : UrlShortenerService}
    (h : Reachable svc) : linkStatsKeyInv svc := by
  induction h with
  | init => exact linkStatsKeyInv_new
  | step hr hstep ih => exact linkStatsKeyInv_applyOp ih hstep

theorem reachable_slugKeyInv {svc : UrlShortenerService}
    (h : Reachable svc) : slugKeyInv svc := by
  induction h with
  | init => exact slugKeyInv_new
  | step hr hstep ih => exact slugKeyInv_applyOp ih hstep

theorem getRedirects_applyOp {svc svc' : UrlShortenerService} {op : Op} {t : Slug} {n : Nat}
    (h : applyOp svc op = some svc')
    (hmem : mapContains svc.map t = true)
    (hn : getRedirects svc t = some n) :
    mapContains svc'.map t = true ∧
    getRedirects svc' t = some (if op = Op.redirect t then n + 1 else n) := by
  cases op with
  | create url slugOpt gen =>
    simp only [applyOp, Option.some.injEq] at h
    subst h
    rw [handle_create_short_link]
    split
    · simpa using ⟨hmem, hn⟩
    split
    · simpa using ⟨hmem, hn⟩
    · rename_i hc
      have hne : slugOpt.getD gen ≠ t := by
        intro he
        rw [he] at hc
        exact hc hmem
      constructor
      · simp only [mapContains_mapInsert, if_neg hne]
        exact hmem
      · rw [if_neg (by simp : ¬(Op.create url slugOpt gen = Op.redirect t))]
        rw [getRedirects] at hn ⊢
        simp only [mapLookup_mapInsert, if_neg hne]
        exact hn
  | redirect u =>
    simp only [applyOp, handle_redirect] at h
    cases hm : mapLookup svc.map u with
    | none =>
      rw [hm] at h
      simp at h
      subst h
      have hne : ¬(u = t) := by
        intro he
        subst he
        rw [mapContains, hm] at hmem
        simp at hmem
      simp only [Op.redirect.injEq, if_neg hne]
      exact ⟨hmem, hn⟩
    | some link =>
      rw [hm] at h
      cases hst : mapLookup svc.stats u with
      | none => rw [hst] at h; simp at h
      | some st =>
        rw [hst] at h
        simp at h
        subst h
        by_cases hut : u = t
        · subst hut
          refine ⟨hmem, ?_⟩
          rw [getRedirects] at hn
          rw [hst] at hn
          simp only [Option.map_some', Option.some.injEq] at hn
          simp only [getRedirects, mapLookup_mapUpdate, if_pos rfl, hst,
            Option.map_some', Option.some.injEq, Op.redirect.injEq, if_pos rfl]
          simp [hn]
        · refine ⟨hmem, ?_⟩
          simp only [getRedirects, mapLookup_mapUpdate, if_neg hut,
            Op.redirect.injEq, if_neg hut]
          exact hn
  | change u v =>
    simp only [applyOp, Option.some.injEq] at h
    subst h
    rw [handle_change_short_link]
    split
    · simpa using ⟨hmem, hn⟩
    cases hm : mapLookup svc.map u with
    | none => simpa using ⟨hmem, hn⟩
    | some link =>
      constructor
      · simp only [mapContains_mapUpdate]
        exact hmem
      · rw [if_neg (by simp : ¬(Op.change u v = Op.redirect t))]
        exact hn
  | getStats u =>
    simp only [applyOp] at h
    cases hg : get_stats svc u with
    | none => rw [hg] at h; simp at h
    | some r =>
      rw [hg] at h
      simp at h
      subst h
      simpa using ⟨hmem, hn⟩

theorem getRedirects_runOps (t : Slug) (ops : List Op) :
    ∀ svc svc' n, mapContains svc.map t = true → getRedirects svc t = some n →
      runOps svc ops = some svc' →
      mapContains svc'.map t = true ∧
      getRedirects svc' t = some (n + countRedirects t ops) := by
  induction ops with
  | nil =>
    intro svc svc' n hmem hn hr
    rw [runOps] at hr
    simp only [Option.some.injEq] at hr
    subst hr
    simpa [countRedirects] using ⟨hmem, hn⟩
  | cons op rest ih =>
    intro svc svc' n hmem hn hr
    rw [runOps] at hr
    cases hap : applyOp svc op with
    | none => rw [hap] at hr; simp at hr
    | some svc1 =>
      rw [hap] at hr
      obtain ⟨hmem1, hn1⟩ := getRedirects_applyOp hap hmem hn
      by_cases hop : op = Op.redirect t
      · have := ih svc1 svc' (n + 1) hmem1 (by simpa [hop] using hn1) hr
        refine ⟨this.1, ?_⟩
        rw [this.2]
        have : n + 1 + countRedirects t rest = n + countRedirects t (op :: rest) := by
          rw [countRedirects, if_pos hop]
          omega
        rw [this]
      · have := ih svc1 svc' n hmem1 (by simpa [hop] using hn1) hr
        refine ⟨this.1, ?_⟩
        rw [this.2]
        have : n + countRedirects t rest = n + countRedirects t (op :: rest) := by
          rw [countRedirects, if_neg hop]
          omega
        rw [this]

/-- C6: in every state where slug `s` is already present in the store, a
create call with a valid URL and the explicit slug `s` fails with
`SlugAlreadyInUse` and leaves the state unchanged, so the creation path
never rebinds an assigned slug. -/
theorem C6_create_existing_slug_fails
    (svc : UrlShortenerService) (s : Slug) (url : Url) (gen : Slug)
    (hpresent : mapContains svc.map s = true) (hurl : validate_url url = true) :
    handle_create_short_link svc url (some s) gen =
      (Except.error ShortenerError.SlugAlreadyInUse, svc) := by
  simp [handle_create_short_link, hurl, hpresent]

/-- Witness for `C6_create_existing_slug_fails` at a concrete state. -/
theorem C6_witness :
    handle_create_short_link svcCreated "http://other.example" (some "s1") "g" =
      (Except.error ShortenerError.SlugAlreadyInUse, svcCreated) :=
  C6_create_existing_slug_fails svcCreated "s1" "http://other.example" "g"
    (by rfl) (by rfl)

/-- C7: the change-URL command validates the new URL before the slug
lookup: with `s` absent, an invalid URL yields `InvalidUrl` (not
`SlugNotFound`) and a valid URL yields `SlugNotFound`. -/
theorem C7_change_url_validates_first
    (svc : UrlShortenerService) (s : Slug) (u : Url)
    (habsent : mapContains svc.map s = false) :
    (validate_url u = false →
      handle_change_short_link svc s u =
        (Except.error ShortenerError.InvalidUrl, svc)) ∧
    (validate_url u = true →
      handle_change_short_link svc s u =
        (Except.error ShortenerError.SlugNotFound, svc)) := by
  constructor
  · intro hv
    simp [handle_change_short_link, hv]
  · intro hv
    have hnone : mapLookup svc.map s = none := (mapContains_eq_false_iff _ _).mp habsent
    simp [handle_change_short_link, hv, hnone]

/-- Witness for `C7_change_url_validates_first` at a concrete state. -/
theorem C7_witness :
    handle_change_short_link UrlShortenerService.new "nope" "ftp://x" =
      (Except.error ShortenerError.InvalidUrl, UrlShortenerService.new) ∧
    handle_change_short_link UrlShortenerService.new "nope" "http://x" =
      (Except.error ShortenerError.SlugNotFound, UrlShortenerService.new) :=
  ⟨(C7_change_url_validates_first UrlShortenerService.new "nope" "ftp://x"
      (by rfl)).1 (by rfl),
   (C7_change_url_validates_first UrlShortenerService.new "nope" "http://x"
      (by rfl)).2 (by rfl)⟩

/-- C8: redirect, change-URL (with a valid URL) and get-stats all answer
`SlugNotFound` for a slug absent from the store, and none of them succeeds
or changes the state. -/
theorem C8_not_found_symmetry
    (svc : UrlShortenerService) (s : Slug)
    (habsent : mapContains svc.map s = false) :
    handle_redirect svc s = some (Except.error ShortenerError.SlugNotFound, svc) ∧
    (∀ u : Url, validate_url u = true →
      handle_change_short_link svc s u =
        (Except.error ShortenerError.SlugNotFound, svc)) ∧
    get_stats svc s = some (Except.error ShortenerError.SlugNotFound) := by
  have hnone : mapLookup svc.map s = none := (mapContains_eq_false_iff _ _).mp habsent
  refine ⟨?_, ?_, ?_⟩
  · simp [handle_redirect, hnone]
  · intro u hv
    simp [handle_change_short_link, hv, hnone]
  · simp [get_stats, habsent]

/-- Witness for `C8_not_found_symmetry` at a concrete state. -/
theorem C8_witness :
    handle_redirect UrlShortenerService.new "ghost" =
      some (Except.error ShortenerError.SlugNotFound, UrlShortenerService.new) ∧
    handle_change_short_link UrlShortenerService.new "ghost" "http://x" =
      (Except.error ShortenerError.SlugNotFound, UrlShortenerService.new) ∧
    get_stats UrlShortenerService.new "ghost" =
      some (Except.error ShortenerError.SlugNotFound) := by
  have h := C8_not_found_symmetry UrlShortenerService.new "ghost" (by rfl)
  exact ⟨h.1, h.2.1 "http://x" (by rfl), h.2.2⟩

/-- C10: the three commands are atomic with respect to errors: whenever
one returns an error value, the returned state is exactly the input
state. -/
theorem C10_commands_atomic_on_error (svc : UrlShortenerService) :
    (∀ (url : Url) (slugOpt : Option Slug) (gen : Slug) (e : ShortenerError)
        (svc' : UrlShortenerService),
      handle_create_short_link svc url slugOpt gen = (Except.error e, svc') →
        svc' = svc) ∧
    (∀ (s : Slug) (e : ShortenerError) (svc' : UrlShortenerService),
      handle_redirect svc s = some (Except.error e, svc') → svc' = svc) ∧
    (∀ (s : Slug) (u : Url) (e : ShortenerError) (svc' : UrlShortenerService),
      handle_change_short_link svc s u = (Except.error e, svc') → svc' = svc) := by
  refine ⟨?_, ?_, ?_⟩
  · intro url slugOpt gen e svc' h
    rw [handle_create_short_link] at h
    split at h
    · simp only [Prod.mk.injEq] at h
      exact h.2.symm
    split at h
    · simp only [Prod.mk.injEq] at h
      exact h.2.symm
    · exact absurd h (by simp)
  · intro s e svc' h
    rw [handle_redirect] at h
    cases hm : mapLookup svc.map s with
    | none =>
      rw [hm] at h
      simp only [Option.some.injEq, Prod.mk.injEq] at h
      exact h.2.symm
    | some link =>
      rw [hm] at h
      cases hst : mapLookup svc.stats s with
      | none => rw [hst] at h; exact absurd h (by simp)
      | some st => rw [hst] at h; exact absurd h (by simp)
  · intro s u e svc' h
    rw [handle_change_short_link] at h
    split at h
    · simp only [Prod.mk.injEq] at h
      exact h.2.symm
    cases hm : mapLookup svc.map s with
    | none =>
      rw [hm] at h
      simp only [Prod.mk.injEq] at h
      exact h.2.symm
    | some link =>
      rw [hm] at h
      exact absurd h (by simp)

/-- Witness for `C10_commands_atomic_on_error` at a concrete input. -/
theorem C10_witness :
    (handle_create_short_link UrlShortenerService.new "abc" none "g").2 =
      UrlShortenerService.new :=
  (C10_commands_atomic_on_error UrlShortenerService.new).1 "abc" none "g"
    ShortenerError.InvalidUrl _ (by rfl)

/-- C1 (code bug): after a successful change-URL on `"s1"`, the store's
`ShortLink` has the new URL, but the `Stats.link.url` returned by
`get_stats` still carries the old URL — `handle_change_short_link` never
updates the mirrored `Stats.link`, contradicting the claimed invariant at
the reachable state `svcChanged`. -/
theorem C1_stats_link_url_goes_stale :
    Reachable svcChanged ∧
    (handle_change_short_link svcCreated "s1" "http://new.example").1 =
      Except.ok { slug := "s1", url := "http://new.example" } ∧
    mapLookup svcChanged.map "s1" =
      some { slug := "s1", url := "http://new.example" } ∧
    get_stats svcChanged "s1" =
      some (Except.ok
        { link := { slug := "s1", url := "http://old.example" }, redirects := 0 }) := by
  refine ⟨?_, by rfl, by rfl, by rfl⟩
  exact @Reachable.step svcCreated svcChanged
    (Op.change "s1" "http://new.example")
    (@Reachable.step UrlShortenerService.new svcCreated
      (Op.create "http://old.example" (some "s1") "s1") Reachable.init rfl)
    rfl

/-- C3 counterexample: the generator's alphabet has 56 characters, not 62;
the letters `i`, `l`, `o` (and `I`, `L`, `O`) of the claimed 62-character
alphabet are absent from it. -/
theorem C3_counterexample :
    slug_alphabet.length = 56 ∧
    spec_alphabet_62.length = 62 ∧
    ('i' ∈ spec_alphabet_62 ∧ 'i' ∉ slug_alphabet) ∧
    ('l' ∈ spec_alphabet_62 ∧ 'l' ∉ slug_alphabet) ∧
    ('o' ∈ spec_alphabet_62 ∧ 'o' ∉ slug_alphabet) := by
  refine ⟨by decide, by decide, by decide, by decide, by decide⟩

/-- C3 (amended): every slug the generator returns is exactly 6 characters,
pairwise distinct (drawn without replacement), all from the service's
56-character alphabet, and absent from the store at generation time. -/
theorem C3_generated_slug_properties
    (svc : UrlShortenerService) (cands : List (List Char)) (s : Slug)
    (hall : ∀ c ∈ cands, chooseMultipleDraw c)
    (hgen : generate_unique_slug svc cands = some s) :
    s.data.length = 6 ∧ s.data.Nodup ∧ (∀ ch ∈ s.data, ch ∈ slug_alphabet) ∧
    mapContains svc.map s = false := by
  revert hall hgen
  induction cands with
  | nil =>
    intro hall hgen
    rw [generate_unique_slug] at hgen
    exact absurd hgen (by simp)
  | cons c rest ih =>
    intro hall hgen
    simp only [generate_unique_slug] at hgen
    by_cases hc : mapContains svc.map (String.mk c) = true
    · rw [if_pos hc] at hgen
      exact ih (fun c' hc' => hall c' (List.mem_cons_of_mem _ hc')) hgen
    · rw [if_neg hc] at hgen
      simp only [Option.some.injEq] at hgen
      subst hgen
      obtain ⟨h6, hnd, hmem⟩ := hall c (List.mem_cons_self c rest)
      refine ⟨h6, hnd, hmem, ?_⟩
      cases hb : mapContains svc.map (String.mk c) with
      | false => rfl
      | true => exact absurd hb hc

/-- Witness for `C3_generated_slug_properties` at a concrete draw. -/
theorem C3_witness :
    ("aAbBcC" : Slug).data.length = 6 ∧ ("aAbBcC" : Slug).data.Nodup ∧
    (∀ ch ∈ ("aAbBcC" : Slug).data, ch ∈ slug_alphabet) ∧
    mapContains UrlShortenerService.new.map "aAbBcC" = false :=
  C3_generated_slug_properties UrlShortenerService.new
    [['a', 'A', 'b', 'B', 'c', 'C']] "aAbBcC"
    (by
      intro c hc
      rw [List.mem_singleton] at hc
      subst hc
      exact ⟨by decide, by decide, by decide⟩)
    (by decide)

/-- C4 counterexample: `"http://://a"` starts with `"http://"` and its
remainder after the scheme separator is non-empty, yet the validator
rejects it (the split-based check looks only at the segment before the
next `"://"`). -/
theorem C4_counterexample :
    starts_with "http://" "http://://a" = true ∧
    ("http://://a" : Url).data.drop 7 ≠ [] ∧
    validate_url "http://://a" = false := by
  refine ⟨by decide, by decide, by decide⟩

/-- C4 (amended): the validator accepts a string iff it begins with
`"http://"` or `"https://"` and the remainder after the scheme prefix is
non-empty and does not itself begin with `"://"` (equivalently, the segment
before the next `"://"` is non-empty); the five example values of the claim
all hold. -/
theorem C4_validator_characterization :
    (∀ url : Url, validate_url url = true ↔
      ((starts_with "http://" url = true ∨ starts_with "https://" url = true) ∧
        schemeRemainder url ≠ [] ∧
        sepChars.isPrefixOf (schemeRemainder url) = false)) ∧
    validate_url "http://a.b" = true ∧
    validate_url "https://a.b" = true ∧
    validate_url "ftp://a.b" = false ∧
    validate_url "http://" = false ∧
    validate_url "abc" = false :=
  ⟨validate_url_iff, by decide, by decide, by decide, by decide, by decide⟩

/-- Witness instantiating `C4_validator_characterization` at a concrete
URL. -/
theorem C4_witness :
    validate_url "http://a.b" = true ↔
      ((starts_with "http://" "http://a.b" = true ∨
          starts_with "https://" "http://a.b" = true) ∧
        schemeRemainder "http://a.b" ≠ [] ∧
        sepChars.isPrefixOf (schemeRemainder "http://a.b") = false) :=
  C4_validator_characterization.1 "http://a.b"

/-- C9: the "same keys in `map` and `stats`" invariant holds in the fresh
service, is preserved by every operation, holds in every reachable state,
and under it the internal stats lookups of `handle_redirect` and
`get_stats` never hit their `unwrap` panic branch. -/
theorem C9_link_stats_key_invariant :
    linkStatsKeyInv UrlShortenerService.new ∧
    (∀ (svc svc' : UrlShortenerService) (op : Op),
      linkStatsKeyInv svc → applyOp svc op = some svc' → linkStatsKeyInv svc') ∧
    (∀ svc : UrlShortenerService, Reachable svc → linkStatsKeyInv svc) ∧
    (∀ svc : UrlShortenerService, linkStatsKeyInv svc →
      ∀ s : Slug, handle_redirect svc s ≠ none ∧ get_stats svc s ≠ none) := by
  refine ⟨linkStatsKeyInv_new, ?_, ?_, ?_⟩
  · intro svc svc' op hinv h
    exact linkStatsKeyInv_applyOp hinv h
  · intro svc h
    exact reachable_linkStatsKeyInv h
  · intro svc hinv s
    constructor
    · rw [handle_redirect]
      cases hm : mapLookup svc.map s with
      | none => simp
      | some link =>
        have hkey := hinv s
        rw [hm] at hkey
        cases hst : mapLookup svc.stats s with
        | none => rw [hst] at hkey; simp at hkey
        | some st => simp
    · rw [get_stats]
      by_cases hc : mapContains svc.map s = true
      · rw [if_pos hc]
        have hkey := hinv s
        rw [mapContains] at hc
        cases hst : mapLookup svc.stats s with
        | none =>
          rw [hst] at hkey
          rw [hkey] at hc
          simp at hc
        | some st => simp
      · rw [if_neg hc]
        simp

/-- Witness for `C9_link_stats_key_invariant` at a concrete state. -/
theorem C9_witness :
    handle_redirect UrlShortenerService.new "zzz" ≠ none ∧
    get_stats UrlShortenerService.new "zzz" ≠ none :=
  C9_link_stats_key_invariant.2.2.2 UrlShortenerService.new
    linkStatsKeyInv_new "zzz"

/-- C5: in every reachable state, a successful change-URL on slug `s` with
new URL `u2` returns the updated `ShortLink` `{slug := s, url := u2}` by
value, and the next redirect of `s` succeeds and returns that same updated
link. -/
theorem C5_change_url_then_redirect
    (svc : UrlShortenerService) (hreach : Reachable svc)
    (s : Slug) (u2 : Url) (link : ShortLink) (svc' : UrlShortenerService)
    (hc : handle_change_short_link svc s u2 = (Except.ok link, svc')) :
    link = { slug := s, url := u2 } ∧
    ∃ svc'' : UrlShortenerService,
      handle_redirect svc' s = some (Except.ok link, svc'') := by
  have hkeys := reachable_linkStatsKeyInv hreach
  have hslug := reachable_slugKeyInv hreach
  rw [handle_change_short_link] at hc
  split at hc
  · exact absurd hc (by simp)
  cases hm : mapLookup svc.map s with
  | none =>
    rw [hm] at hc
    exact absurd hc (by simp)
  | some link0 =>
    rw [hm] at hc
    simp only [Prod.mk.injEq, Except.ok.injEq] at hc
    obtain ⟨hlink, hsvc'⟩ := hc
    have hslug0 : link0.slug = s := hslug s link0 hm
    have hlink2 : link = { slug := s, url := u2 } := by
      rw [← hlink, ← hslug0]
    refine ⟨hlink2, ?_⟩
    have hm' : mapLookup svc'.map s = some { slug := s, url := u2 } := by
      rw [← hsvc']
      show mapLookup (mapUpdate svc.map s (fun l => { l with url := u2 })) s = _
      rw [mapLookup_mapUpdate, if_pos rfl, hm, Option.map_some', ← hslug0]
    have hst' : svc'.stats = svc.stats := by
      rw [← hsvc']
    have hkey := hkeys s
    rw [handle_redirect, hm', hst']
    cases hst : mapLookup svc.stats s with
    | none =>
      rw [hm, hst] at hkey
      simp at hkey
    | some st =>
      rw [hlink2]
      exact ⟨_, rfl⟩

/-- Witness for `C5_change_url_then_redirect` at a concrete state. -/
theorem C5_witness :
    ({ slug := "s1", url := "http://w.example" } : ShortLink) =
      { slug := "s1", url := "http://w.example" } ∧
    ∃ svc'' : UrlShortenerService,
      handle_redirect
          (handle_change_short_link svcCreated "s1" "http://w.example").2 "s1" =
        some (Except.ok { slug := "s1", url := "http://w.example" }, svc'') :=
  C5_change_url_then_redirect svcCreated
    (@Reachable.step UrlShortenerService.new svcCreated
      (Op.create "http://old.example" (some "s1") "s1") Reachable.init rfl)
    "s1" "http://w.example" { slug := "s1", url := "http://w.example" }
    (handle_change_short_link svcCreated "s1" "http://w.example").2 (by rfl)

/-- C2: a successful create records a zero redirect counter for the new
slug; after any panic-free trace the counter equals exactly the number of
redirect operations on that slug in the trace (other operations leave it
unchanged); and every single operation changes a tracked counter by +1
when it is a redirect of that slug and by 0 otherwise, so the counter
never decreases. -/
theorem C2_redirect_counting
    (svc : UrlShortenerService) (url : Url) (slugOpt : Option Slug) (gen : Slug)
    (link : ShortLink) (svc' : UrlShortenerService)
    (hc : handle_create_short_link svc url slugOpt gen = (Except.ok link, svc')) :
    getRedirects svc' link.slug = some 0 ∧
    (∀ (ops : List Op) (svc'' : UrlShortenerService),
      runOps svc' ops = some svc'' →
      getRedirects svc'' link.slug = some (countRedirects link.slug ops)) ∧
    (∀ (σ σ' : UrlShortenerService) (op : Op) (t : Slug) (n : Nat),
      applyOp σ op = some σ' → mapContains σ.map t = true →
      getRedirects σ t = some n →
      ∃ m, getRedirects σ' t = some m ∧ n ≤ m ∧
        (op = Op.redirect t → m = n + 1) ∧ (¬(op = Op.redirect t) → m = n)) := by
  rw [handle_create_short_link] at hc
  split at hc
  · exact absurd hc (by simp)
  split at hc
  · exact absurd hc (by simp)
  simp only [Prod.mk.injEq, Except.ok.injEq] at hc
  obtain ⟨hlink, hsvc'⟩ := hc
  have hlinkslug : link.slug = slugOpt.getD gen := by
    rw [← hlink]
  have hmem' : mapContains svc'.map link.slug = true := by
    rw [← hsvc', hlinkslug]
    show mapContains (mapInsert svc.map (slugOpt.getD gen) _) (slugOpt.getD gen) = true
    rw [mapContains_mapInsert, if_pos rfl]
  have hzero : getRedirects svc' link.slug = some 0 := by
    rw [← hsvc', hlinkslug]
    simp [getRedirects, mapLookup_mapInsert]
  refine ⟨hzero, ?_, ?_⟩
  · intro ops svc'' hrun
    have h := (getRedirects_runOps link.slug ops svc' svc'' 0 hmem' hzero hrun).2
    simpa using h
  · intro σ σ' op t n hap hmem hn
    obtain ⟨hm1, hg1⟩ := getRedirects_applyOp hap hmem hn
    by_cases hop : op = Op.redirect t
    · exact ⟨n + 1, by simpa [hop] using hg1, Nat.le_succ n,
        fun _ => rfl, fun hcon => absurd hop hcon⟩
    · exact ⟨n, by simpa [hop] using hg1, Nat.le_refl n,
        fun hcon => absurd hcon hop, fun _ => rfl⟩

/-- Witness for `C2_redirect_counting` at a concrete trace: after two
redirects of `"s1"` (with a query and a URL change interleaved) the
recorded counter is exactly the number of redirects in the trace. -/
theorem C2_witness :
    getRedirects svcTraced "s1" = some (countRedirects "s1" opsTrace) :=
  (C2_redirect_counting UrlShortenerService.new "http://old.example"
    (some "s1") "s1" { slug := "s1", url := "http://old.example" }
    svcCreated (by rfl)).2.1 opsTrace svcTraced (by rfl)
